import Mathlib

/-!
Verification of the private-blockchain star registry
(src/block.js and src/blockchain.js) against its specification.

Shallow embedding notes.
The JavaScript code is embedded as pure Lean functions with explicit state
passing.  The external collaborators are modelled as the spec directs:
the SHA256 digest primitive is an explicit function argument
(sha : String -> String); the bitcoinjs-message signature primitive is an
explicit function argument (verify); wall-clock reads are explicit Int
arguments.  The hex-of-JSON payload codec (Buffer/JSON.stringify on encode,
hex2ascii/JSON.parse on decode) is an opaque reversible codec per the spec;
we model it by storing the decoded JSON value in the body field and
serialising it through jser/hexOfString (a faithful ASCII model of the
encoding) whenever the block is itself stringified for hashing.
-/

/-- JSON-like application payload values.  Objects are modelled as a field
chain built from fnil and fcons sitting inside a jobj constructor, which
keeps all recursions structural. -/
inductive JVal where
  | jnull
  | jbool (b : Bool)
  | jnum (n : Int)
  | jstr (s : String)
  | fnil
  | fcons (key : String) (value : JVal) (rest : JVal)
  | jobj (fields : JVal)

/-- JSON string escaping for one character (quote and backslash, as produced
by JSON.stringify on the strings this program handles). -/
def escChar (c : Char) : List Char :=
  if c = '"' then ['\\', '"']
  else if c = '\\' then ['\\', '\\']
  else [c]

/-- JSON string escaping. -/
def escStr (s : String) : String := String.mk (s.data.flatMap escChar)

/-- A JSON string literal: opening quote, escaped content, closing quote. -/
def jstrQuote (s : String) : String := "\"" ++ escStr s ++ "\""

/-- JSON.stringify for payload values. -/
def jser : JVal → String
  | .jnull => "null"
  | .jbool true => "true"
  | .jbool false => "false"
  | .jnum n => toString n
  | .jstr s => jstrQuote s
  | .fnil => ""
  | .fcons k v .fnil => jstrQuote k ++ ":" ++ jser v
  | .fcons k v rest => jstrQuote k ++ ":" ++ jser v ++ "," ++ jser rest
  | .jobj fs => "\x7b" ++ jser fs ++ "\x7d"

/-- Field lookup in an object field chain (first match; the objects built by
this program have distinct keys). -/
def fieldLookup : JVal → String → Option JVal
  | .fcons k v rest, key => if k = key then some v else fieldLookup rest key
  | _, _ => none

/-- JavaScript property access data.owner: some value for an object with an
owner field, otherwise undefined (none). -/
def jsGetOwner : JVal → Option JVal
  | .jobj fs => fieldLookup fs "owner"
  | _ => none

/-- JavaScript truthiness of a decoded value. -/
def jsTruthy : JVal → Bool
  | .jnull => false
  | .jbool b => b
  | .jnum n => n != 0
  | .jstr s => s != ""
  | _ => true

/-- The test data and data.owner === address from getStarsByWalletAddress:
true iff the decoded value has an owner field that is exactly the address
string (strict equality of an object property against a string). -/
def ownerEq (data : JVal) (address : String) : Bool :=
  match jsGetOwner data with
  | some (.jstr s) => s == address
  | _ => false

/-- One block of the chain, mirroring the constructor field order of
class Block: hash, height, body, time, previousBlockHash.  The body field
holds the decoded payload; its on-the-wire hex encoding is recomputed by
jsonStr when the block is stringified (see the embedding notes above). -/
structure Block where
  hash : Option String
  height : Nat
  body : JVal
  time : Int
  previousBlockHash : Option String

/-- new Block(data): hash null, height 0, body the encoded data, time 0,
previousBlockHash null. -/
def newBlock (data : JVal) : Block :=
  { hash := none, height := 0, body := data, time := 0, previousBlockHash := none }

/-- Lowercase hex digit, as produced by Buffer.toString with hex. -/
def hexDigit (n : Nat) : Char :=
  if n < 10 then Char.ofNat (48 + n) else Char.ofNat (87 + n)

/-- Two hex digits of one byte. -/
def hexByte (n : Nat) : List Char := [hexDigit (n / 16 % 16), hexDigit (n % 16)]

/-- Buffer.from(s).toString(hex) for the ASCII strings this program
produces. -/
def hexOfString (s : String) : String :=
  String.mk (s.data.flatMap (fun c => hexByte c.toNat))

/-- JSON serialisation of a nullable string field (null or a quoted
string). -/
def optStrJson : Option String → String
  | none => "null"
  | some s => jstrQuote s

/-- JSON.stringify(block): the five own fields in constructor insertion
order. -/
def jsonStr (b : Block) : String :=
  "\x7b\"hash\":" ++ optStrJson b.hash
    ++ ",\"height\":" ++ toString b.height
    ++ ",\"body\":" ++ jstrQuote (hexOfString (jser b.body))
    ++ ",\"time\":" ++ toString b.time
    ++ ",\"previousBlockHash\":" ++ optStrJson b.previousBlockHash
    ++ "\x7d"

/-- Block.validate(): remembers the stored hash, recomputes
SHA256(JSON.stringify(self)) over the current state (stored hash included),
overwrites the stored hash with the fresh digest, and resolves with whether
the remembered hash equals the fresh digest.  Returned here as the mutated
block together with the resolved boolean. -/
def Block.validateRun (sha : String → String) (b : Block) : Block × Bool :=
  let currentBlockHash := b.hash
  let newBlockHash := sha (jsonStr b)
  ({ b with hash := some newBlockHash }, currentBlockHash == some newBlockHash)

/-- Block.getBData(): decodes the body (total in this model, since bodies
hold their decoded payload) and returns the genesis sentinel string when the
height is 0, the decoded payload otherwise. -/
def Block.getBData (b : Block) : JVal :=
  let decodedData := b.body
  if b.height = 0 then JVal.jstr "** Genesis Block **" else decodedData

/-- The chain: ordered block array plus the height counter (-1 before the
genesis block exists). -/
structure Blockchain where
  chain : List Block
  height : Int

/-- The empty chain set up by the Blockchain constructor before
initialisation. -/
def emptyChain : Blockchain := { chain := [], height := -1 }

/-- Template-literal rendering of a nullable hash value (null prints as the
word null). -/
def optStrText : Option String → String
  | none => "null"
  | some s => s

/-- The linkage error string pushed by validateChain on a
previousBlockHash mismatch. -/
def mismatchMsg (index : Nat) (got expected : Option String) : String :=
  "Block " ++ toString index ++ " Hash Mismatch :: PreviousBlockHash "
    ++ optStrText got ++ ", Required PreviousBlockHash " ++ optStrText expected

/-- The tamper error string validateChain would push for an invalid
block. -/
def invalidMsg (index : Nat) (h : Option String) : String :=
  "Block " ++ toString index ++ " Invalid :: Hash (" ++ optStrText h ++ ")"

/-- A JavaScript Promise object is truthy.  In the source, validateChain
tests the negation of block.validate() directly, and block.validate() is an
async method, so the value being negated is the promise itself, not the
boolean it resolves to. -/
def promiseTruthy : Bool := true

/-- The body of the validateChain forEach traversal.  fuel counts the
remaining iterations (the entry point passes the chain length, which is
exact since the loop visits each index once and the length never changes).
For each index whose block has height above 0 it compares
previousBlockHash against the previous block entry (pushing a linkage
error on mismatch), then calls block.validate() for its side effect and
tests the negated promise, which is never true, so the tamper branch never
pushes.  Accessing the entry before index 0 faults, which the surrounding
catch turns into the generic chain validation error. -/
def vcGo (sha : String → String) : Nat → List Block → Nat → List String →
    Except String (List Block × List String)
  | 0, chain, _, log => Except.ok (chain, log)
  | fuel + 1, chain, i, log =>
    if h : i < chain.length then
      let block := chain[i]
      if block.height > 0 then
        if i = 0 then
          Except.error "Could not validate chain."
        else
          let prev := chain[i - 1]
          let log1 :=
            if block.previousBlockHash ≠ prev.hash then
              log ++ [mismatchMsg i block.previousBlockHash prev.hash]
            else log
          let vres := Block.validateRun sha block
          let log2 :=
            if !promiseTruthy then log1 ++ [invalidMsg i vres.1.hash] else log1
          vcGo sha fuel (chain.set i vres.1) (i + 1) log2
      else
        vcGo sha fuel chain (i + 1) log
    else
      Except.ok (chain, log)

/-- validateChain() on a block array: full traversal, returning the mutated
array together with the accumulated error log. -/
def validateChainL (sha : String → String) (chain : List Block) :
    Except String (List Block × List String) :=
  vcGo sha chain.length chain 0 []

/-- validateChain() on a chain. -/
def validateChain (sha : String → String) (bc : Blockchain) :
    Except String (List Block × List String) :=
  validateChainL sha bc.chain

/-- The synchronous mutation prefix of _addBlock(block): set height to the
current chain length, set time, then compute the hash over the serialised
state as it stands at that point (height and time already set, hash still
holding its previous value; previousBlockHash is never assigned). -/
def prepBlock (sha : String → String) (now : Int) (chainLen : Nat) (b : Block) : Block :=
  let b1 := { b with height := chainLen, time := now }
  { b1 with hash := some (sha (jsonStr b1)) }

/-- _addBlock(block): mutate the block as above, run validateChain over the
chain as it stands (mutating stored hashes as a side effect), and only when
the error log is empty push the block and increment the height counter;
otherwise resolve with no block and no signal.  A validateChain fault is
rethrown. -/
def addBlock (sha : String → String) (now : Int) (bc : Blockchain) (b : Block) :
    Except String (Blockchain × Option Block) :=
  let b2 := prepBlock sha now bc.chain.length b
  match validateChain sha bc with
  | Except.error e => Except.error e
  | Except.ok (chain2, errors) =>
    if errors.length = 0 then
      Except.ok ({ chain := chain2 ++ [b2], height := bc.height + 1 }, some b2)
    else
      Except.ok ({ bc with chain := chain2 }, none)

/-- The genesis payload passed by initializeChain. -/
def genesisData : JVal := JVal.jobj (JVal.fcons "data" (JVal.jstr "Genesis Block") JVal.fnil)

/-- The chain right after construction: initializeChain sees height -1 and
admits a fresh genesis block through _addBlock at the current time. -/
def initialChain (sha : String → String) (now : Int) : Blockchain :=
  match addBlock sha now emptyChain (newBlock genesisData) with
  | Except.ok (bc, _) => bc
  | Except.error _ => emptyChain

/-- getBlockByHeight(height): filter the array on strict equality of the
height field against the argument and take entry 0, yielding null when
there is no match. -/
def getBlockByHeight (bc : Blockchain) (height : Int) : Option Block :=
  (bc.chain.filter (fun p => ((p.height : Int) == height))).head?

/-- getStarsByWalletAddress(address): traverse the chain in order, decode
each block through getBData, and push every decoded value that is truthy
and whose owner field strictly equals the address. -/
def getStarsByWalletAddress (bc : Blockchain) (address : String) : List JVal :=
  bc.chain.foldl
    (fun stars block =>
      let data := block.getBData
      if jsTruthy data && ownerEq data address then stars ++ [data] else stars)
    []

/-- The star payload object constructed by submitStar. -/
def starPayload (address : String) (star : JVal) : JVal :=
  JVal.jobj (JVal.fcons "owner" (JVal.jstr address)
    (JVal.fcons "star" star JVal.fnil))

/-- Split a character list at every occurrence of the separator. -/
def splitChars (sep : Char) : List Char → List (List Char)
  | [] => [[]]
  | c :: rest =>
    let r := splitChars sep rest
    if c = sep then [] :: r
    else
      match r with
      | [] => [[c]]
      | h :: t => (c :: h) :: t

/-- message.split(sep) for a one-character separator: the list of the
(possibly empty) pieces between occurrences of the separator. -/
def jsSplit (sep : Char) (s : String) : List String :=
  (splitChars sep s.data).map String.mk

/-- Decimal digit run value for the parseInt model. -/
def digitsVal (cs : List Char) : Option Nat :=
  let ds := cs.takeWhile Char.isDigit
  if ds.isEmpty then none
  else some (ds.foldl (fun a c => a * 10 + (c.toNat - 48)) 0)

/-- parseInt(s) in base 10: skip leading whitespace, read an optional sign
and then a maximal run of decimal digits; NaN (no digits at all) is
none. -/
def jsParseInt (s : String) : Option Int :=
  let cs := s.data.dropWhile (fun c => c == ' ' || c == '\t' || c == '\n')
  match cs with
  | '-' :: rest => (digitsVal rest).map (fun n => -(n : Int))
  | '+' :: rest => (digitsVal rest).map (fun n => (n : Int))
  | _ => (digitsVal cs).map (fun n => (n : Int))

/-- The try block of submitStar: parse the timestamp out of the second
colon-delimited field of the message, compare the elapsed seconds against
the five-minute window (a NaN timestamp fails the comparison), verify the
signature, and on success construct the star block and hand it to
_addBlock.  The _addBlock call is not awaited: its resolved value and any
rejection are discarded, and the block reference already mutated by the
synchronous prefix of _addBlock is returned.  The two failure branches
throw their specific messages. -/
def submitStarTry (sha : String → String)
    (verify : String → String → String → Bool)
    (currentTime : Int) (nowMs : Int) (bc : Blockchain)
    (address message signature : String) (star : JVal) :
    Blockchain × Except String Block :=
  let passedTime := jsParseInt ((jsSplit ':' message).getD 1 "")
  let fiveMinutesInSeconds : Int := 5 * 60
  let timeOk :=
    match passedTime with
    | some t => decide (currentTime - t < fiveMinutesInSeconds)
    | none => false
  if timeOk then
    if verify message address signature then
      let block := newBlock (starPayload address star)
      let returned := prepBlock sha nowMs bc.chain.length block
      match addBlock sha nowMs bc block with
      | Except.ok (bc2, _) => (bc2, Except.ok returned)
      | Except.error _ => (bc, Except.ok returned)
    else
      (bc, Except.error "Message could not be verified.")
  else
    (bc, Except.error
      "Time between current time and passed time needs to be less than 5 minutes.")

/-- submitStar(address, message, signature, star): the catch block wraps
every failure of the try block into the one generic submission error. -/
def submitStar (sha : String → String)
    (verify : String → String → String → Bool)
    (currentTime : Int) (nowMs : Int) (bc : Blockchain)
    (address message signature : String) (star : JVal) :
    Blockchain × Except String Block :=
  match submitStarTry sha verify currentTime nowMs bc address message signature star with
  | (bc2, Except.error _) =>
      (bc2, Except.error "There was an issue submitting your star.")
  | ok => ok

/-- Chain states reachable through the genesis creation and successful
admissions only: _addBlock or submitStar calls on freshly constructed
blocks that actually resolve with an admitted block. -/
inductive Reachable (sha : String → String) : Blockchain → Prop where
  | init (now : Int) : Reachable sha (initialChain sha now)
  | step (bc : Blockchain) (now : Int) (d : JVal) (bc2 : Blockchain) (b2 : Block) :
      Reachable sha bc →
      addBlock sha now bc (newBlock d) = Except.ok (bc2, some b2) →
      Reachable sha bc2

/-! Concrete instantiations used by the closed witness theorems.  idHash is
an injective stand-in for the digest primitive, and the chains below are
the states the program actually reaches when run with it. -/

/-- A concrete injective digest function for closed evaluations. -/
def idHash : String → String := fun s => s

/-- The stored genesis block of the concrete chain. -/
def gBlock : Block := prepBlock idHash 0 0 (newBlock genesisData)

/-- The one admitted star block of the concrete chain. -/
def tBlock : Block := prepBlock idHash 0 1 (newBlock (JVal.jstr "s"))

/-- The concrete chain after the genesis creation and one successful
admission. -/
def twoChain : Blockchain := { chain := [gBlock, tBlock], height := 1 }

/-- The concrete two-block chain with the body of the admitted block
tampered after admission. -/
def tamperedChain : Blockchain :=
  { chain := [gBlock, { tBlock with body := JVal.jstr "tampered" }], height := 1 }

/-- A concrete chain holding a genesis block, two star blocks owned by the
address addr and one owned by another address. -/
def starsChain : Blockchain :=
  { chain := [gBlock,
      { hash := none, height := 1, body := starPayload "addr" (JVal.jstr "s1"),
        time := 0, previousBlockHash := none },
      { hash := none, height := 2, body := starPayload "other" (JVal.jstr "x"),
        time := 0, previousBlockHash := none },
      { hash := none, height := 3, body := starPayload "addr" (JVal.jstr "s2"),
        time := 0, previousBlockHash := none }],
    height := 3 }

/-- Shape of the stored genesis block: height 0, a computed hash, and a
null previousBlockHash. -/
def GoodGenesis (b : Block) : Prop :=
  b.height = 0 ∧ b.hash ≠ none ∧ b.previousBlockHash = none

/-- Shape of the one admitted non-genesis block: height 1, a computed
hash, and a previousBlockHash left null by _addBlock. -/
def GoodTip (b : Block) : Prop :=
  b.height = 1 ∧ b.hash ≠ none ∧ b.previousBlockHash = none

/-- Every chain reachable through successful admissions is either the
genesis alone or the genesis plus one admitted block. -/
def ShapeInv (bc : Blockchain) : Prop :=
  (∃ g, bc.chain = [g] ∧ GoodGenesis g ∧ bc.height = 0) ∨
  (∃ g t, bc.chain = [g, t] ∧ GoodGenesis g ∧ GoodTip t ∧ bc.height = 1)

/-! Evaluation lemmas for the traversal and admission routines, and the
shape invariant of reachable chains. -/

/-- validateChain of a one-block chain whose block has height 0 checks
nothing and reports nothing. -/
theorem validateChainL_single (sha : String → String) (g : Block) (hg : g.height = 0) :
    validateChainL sha [g] = Except.ok ([g], []) := by
  simp [validateChainL, vcGo, hg]

/-- validateChain of a two-block chain whose second block has positive
height and a previousBlockHash differing from the first block hash: the
linkage error is reported, the second block hash is overwritten by the
validate side effect, and no tamper error appears. -/
theorem validateChainL_pair (sha : String → String) (g t : Block)
    (hg : g.height = 0) (ht : 0 < t.height) (hm : t.previousBlockHash ≠ g.hash) :
    validateChainL sha [g, t]
      = Except.ok ([g, (Block.validateRun sha t).1],
          [mismatchMsg 1 t.previousBlockHash g.hash]) := by
  simp [validateChainL, vcGo, hg, ht, hm, promiseTruthy]

/-- _addBlock on a one-block chain with a height 0 block: validation is
clean, so the prepared block is appended and the height counter grows. -/
theorem addBlock_single (sha : String → String) (now : Int) (g : Block) (hh : Int)
    (b : Block) (hg : g.height = 0) :
    addBlock sha now { chain := [g], height := hh } b
      = Except.ok ({ chain := [g, prepBlock sha now 1 b], height := hh + 1 },
          some (prepBlock sha now 1 b)) := by
  simp [addBlock, validateChain, validateChainL_single sha g hg]

/-- _addBlock on a two-block chain with a broken link: validation reports
the linkage error, so the block is silently dropped, while the second
stored block keeps the hash overwritten by the validate side effect. -/
theorem addBlock_pair (sha : String → String) (now : Int) (g t : Block) (hh : Int)
    (b : Block) (hg : g.height = 0) (ht : 0 < t.height)
    (hm : t.previousBlockHash ≠ g.hash) :
    addBlock sha now { chain := [g, t], height := hh } b
      = Except.ok ({ chain := [g, (Block.validateRun sha t).1], height := hh }, none) := by
  simp [addBlock, validateChain, validateChainL_pair sha g t hg ht hm]

/-- The freshly initialised chain holds exactly the prepared genesis
block. -/
theorem initialChain_eq (sha : String → String) (now : Int) :
    initialChain sha now
      = { chain := [prepBlock sha now 0 (newBlock genesisData)], height := 0 } := by
  simp [initialChain, addBlock, emptyChain, validateChain, validateChainL, vcGo]


/-- A prepared fresh block at chain length 0 is a well-shaped genesis. -/
theorem goodGenesis_prep (sha : String → String) (now : Int) (d : JVal) :
    GoodGenesis (prepBlock sha now 0 (newBlock d)) := by
  refine ⟨rfl, ?_, rfl⟩
  simp [prepBlock]

/-- A prepared fresh block at chain length 1 is a well-shaped tip. -/
theorem goodTip_prep (sha : String → String) (now : Int) (d : JVal) :
    GoodTip (prepBlock sha now 1 (newBlock d)) := by
  refine ⟨rfl, ?_, rfl⟩
  simp [prepBlock]

/-- Reachable chains satisfy the shape invariant; in particular a third
block is never admitted, because on a two-block chain the dangling
previousBlockHash of the tip always produces a linkage error. -/
theorem reachable_shape (sha : String → String) (bc : Blockchain)
    (h : Reachable sha bc) : ShapeInv bc := by
  induction h with
  | init now =>
    exact Or.inl ⟨prepBlock sha now 0 (newBlock genesisData), by rw [initialChain_eq],
      goodGenesis_prep sha now genesisData, by rw [initialChain_eq]⟩
  | step bc now d bc2 b2 _ hstep ih =>
    obtain ⟨bcc, bhh⟩ := bc
    rcases ih with ⟨g, hchain, hgg, hht⟩ | ⟨g, t, hchain, hgg, hgt, hht⟩
    · simp only at hchain hht
      subst hchain hht
      rw [addBlock_single sha now g 0 (newBlock d) hgg.1] at hstep
      simp only [Except.ok.injEq, Prod.mk.injEq, Option.some.injEq] at hstep
      obtain ⟨h1, _⟩ := hstep
      exact Or.inr ⟨g, prepBlock sha now 1 (newBlock d), by rw [← h1], hgg,
        goodTip_prep sha now d, by rw [← h1]; norm_num⟩
    · simp only at hchain hht
      subst hchain hht
      rw [addBlock_pair sha now g t 1 (newBlock d) hgg.1
        (by rw [hgt.1]; norm_num)
        (by rw [hgt.2.2]; exact fun hc => hgg.2.1 hc.symm)] at hstep
      simp only [Except.ok.injEq, Prod.mk.injEq] at hstep
      exact absurd hstep.2 (by simp)

/-! The claims. -/

/-- C1.  The claim states that after a successful admission the new
non-genesis block has previousBlockHash equal to the hash of the previous
tip.  The code never assigns previousBlockHash: the block admitted on top
of the freshly initialised chain keeps previousBlockHash null, while the
block at height 0 carries a non-null computed hash, so the claimed
equality fails on every successful non-genesis admission. -/
theorem c1_second_admission_not_linked (sha : String → String) (t1 t2 : Int)
    (d : JVal) (bc2 : Blockchain) (b2 : Block)
    (h : addBlock sha t2 (initialChain sha t1) (newBlock d)
          = Except.ok (bc2, some b2)) :
    b2.previousBlockHash = none ∧ b2.height = 1 ∧
      ∃ g, bc2.chain.head? = some g ∧ g.height = 0 ∧ g.hash ≠ none := by
  rw [initialChain_eq, addBlock_single sha t2 _ 0 (newBlock d) rfl] at h
  simp only [Except.ok.injEq, Prod.mk.injEq, Option.some.injEq] at h
  obtain ⟨h1, h2⟩ := h
  refine ⟨by rw [← h2]; rfl, by rw [← h2]; rfl,
    prepBlock sha t1 0 (newBlock genesisData), by rw [← h1]; rfl, rfl, ?_⟩
  simp [prepBlock]

/-- Witness for C1 at the concrete digest and admission. -/
theorem c1_witness :
    addBlock idHash 0 (initialChain idHash 0) (newBlock (JVal.jstr "s"))
        = Except.ok (twoChain, some tBlock) ∧
      tBlock.previousBlockHash = none ∧ tBlock.height = 1 ∧
      ∃ g, twoChain.chain.head? = some g ∧ g.height = 0 ∧ g.hash ≠ none :=
  ⟨rfl, c1_second_admission_not_linked idHash 0 0 (JVal.jstr "s") twoChain tBlock rfl⟩

/-- C2.  The claim states that chains reachable through successful
admissions only always validate with an empty error log.  Already the
state reached by the genesis creation plus one successful admission is
reachable, yet validateChain reports a linkage error on it, because the
admitted tip keeps a null previousBlockHash while the genesis hash is
non-null. -/
theorem c2_valid_admissions_validateChain_nonempty (sha : String → String)
    (t1 t2 : Int) (d : JVal) (bc2 : Blockchain) (b2 : Block)
    (h : addBlock sha t2 (initialChain sha t1) (newBlock d)
          = Except.ok (bc2, some b2)) :
    Reachable sha bc2 ∧
      ∃ chain2 log, validateChain sha bc2 = Except.ok (chain2, log) ∧ log ≠ [] := by
  refine ⟨Reachable.step (initialChain sha t1) t2 d bc2 b2 (Reachable.init t1) h, ?_⟩
  rw [initialChain_eq, addBlock_single sha t2 _ 0 (newBlock d) rfl] at h
  simp only [Except.ok.injEq, Prod.mk.injEq, Option.some.injEq] at h
  obtain ⟨h1, _⟩ := h
  rw [← h1]
  refine ⟨[prepBlock sha t1 0 (newBlock genesisData),
      (Block.validateRun sha (prepBlock sha t2 1 (newBlock d))).1],
    [mismatchMsg 1 (prepBlock sha t2 1 (newBlock d)).previousBlockHash
      (prepBlock sha t1 0 (newBlock genesisData)).hash],
    validateChainL_pair sha _ _ rfl (by simp [prepBlock]) (by simp [prepBlock, newBlock]),
    by simp⟩

/-- Witness for C2 at the concrete digest and admission. -/
theorem c2_witness :
    addBlock idHash 0 (initialChain idHash 0) (newBlock (JVal.jstr "s"))
        = Except.ok (twoChain, some tBlock) ∧
      (Reachable idHash twoChain ∧
        ∃ chain2 log, validateChain idHash twoChain = Except.ok (chain2, log) ∧
          log ≠ []) :=
  ⟨rfl, c2_valid_admissions_validateChain_nonempty idHash 0 0 (JVal.jstr "s")
    twoChain tBlock rfl⟩

/-- Auxiliary induction for C3: along the whole traversal, every entry
ever pushed onto the error log is a linkage error, because the tamper
branch is guarded by the negation of a promise object and therefore never
runs. -/
theorem vcGo_only_mismatch (sha : String → String) (fuel : Nat) :
    ∀ (chain : List Block) (i : Nat) (log : List String)
      (chain2 : List Block) (log2 : List String),
      vcGo sha fuel chain i log = Except.ok (chain2, log2) →
      (∀ e ∈ log, ∃ j got exp, e = mismatchMsg j got exp) →
      ∀ e ∈ log2, ∃ j got exp, e = mismatchMsg j got exp := by
  induction fuel with
  | zero =>
    intro chain i log chain2 log2 h hlog
    simp only [vcGo, Except.ok.injEq, Prod.mk.injEq] at h
    rw [← h.2]
    exact hlog
  | succ fuel ih =>
    intro chain i log chain2 log2 h hlog
    rw [vcGo] at h
    by_cases hi : i < chain.length
    · rw [dif_pos hi] at h
      by_cases hh : chain[i].height > 0
      · rw [if_pos hh] at h
        by_cases hz : i = 0
        · rw [if_pos hz] at h
          exact absurd h (by simp)
        · rw [if_neg hz] at h
          simp only [promiseTruthy, Bool.not_true, if_neg] at h
          refine ih _ _ _ _ _ h ?_
          by_cases hm : chain[i].previousBlockHash ≠ (chain[i - 1]).hash
          · rw [if_pos hm]
            intro e he
            rcases List.mem_append.1 he with h1 | h1
            · exact hlog e h1
            · rcases List.mem_singleton.1 h1 with rfl
              exact ⟨i, _, _, rfl⟩
          · rw [if_neg hm]
            exact hlog
      · rw [if_neg hh] at h
        exact ih _ _ _ _ _ h hlog
    · rw [dif_neg hi] at h
      simp only [Except.ok.injEq, Prod.mk.injEq] at h
      rw [← h.2]
      exact hlog

/-- C3.  The claim states that every block beyond index 0 whose validate
check is not true gets a tamper error (index and current hash) appended to
the log.  In the code the test negates the promise returned by
block.validate(), which is always truthy, so the tamper branch is dead:
whenever validateChain completes, every entry of the returned log is a
linkage error, never a tamper error, no matter how the blocks were
tampered with. -/
theorem c3_validateChain_only_linkage_errors (sha : String → String)
    (bc : Blockchain) (chain2 : List Block) (log : List String)
    (h : validateChain sha bc = Except.ok (chain2, log)) :
    ∀ e ∈ log, ∃ j got exp, e = mismatchMsg j got exp :=
  vcGo_only_mismatch sha bc.chain.length bc.chain 0 [] chain2 log h
    (by intro e he; exact absurd he (List.not_mem_nil e))

/-- Witness for C3: on the concrete two-block chain with a tampered body,
the tampered block really resolves validate() to false, the log is
non-empty, and still every logged entry is a linkage error. -/
theorem c3_witness :
    (Block.validateRun idHash ({ tBlock with body := JVal.jstr "tampered" })).2
        = false ∧
      (∃ chain2 log, validateChain idHash tamperedChain = Except.ok (chain2, log) ∧
        log ≠ [] ∧ ∀ e ∈ log, ∃ j got exp, e = mismatchMsg j got exp) := by
  refine ⟨by decide, [gBlock,
      (Block.validateRun idHash { tBlock with body := JVal.jstr "tampered" }).1],
    [mismatchMsg 1 none gBlock.hash], ?_, by simp, ?_⟩
  · rfl
  · exact c3_validateChain_only_linkage_errors idHash tamperedChain _ _ rfl

/-- C4.  When the timestamp parsed from the second colon-delimited field
of the message is at least 300 seconds older than the current time,
submitStar fails with the generic submission error and the chain is left
untouched, for every signature-verification function. -/
theorem c4_submitStar_rejects_expired_window (sha : String → String)
    (verify : String → String → String → Bool)
    (currentTime nowMs : Int) (bc : Blockchain)
    (address message signature : String) (star : JVal) (t : Int)
    (hparse : jsParseInt ((jsSplit ':' message).getD 1 "") = some t)
    (helapsed : 300 ≤ currentTime - t) :
    submitStar sha verify currentTime nowMs bc address message signature star
      = (bc, Except.error "There was an issue submitting your star.") := by
  unfold submitStar submitStarTry
  rw [hparse]
  have hlt : ¬ (currentTime - t < 300) := by omega
  simp [hlt]

/-- Witness for C4: an elapsed time of 301 seconds is rejected even with a
verifier that accepts everything. -/
theorem c4_witness :
    jsParseInt ((jsSplit ':' "a:100:starRegistry").getD 1 "") = some 100 ∧
      (300 : Int) ≤ 401 - 100 ∧
      submitStar idHash (fun _ _ _ => true) 401 0 (initialChain idHash 0)
          "a" "a:100:starRegistry" "sig" (JVal.jstr "st")
        = (initialChain idHash 0,
            Except.error "There was an issue submitting your star.") :=
  ⟨by decide, by decide,
    c4_submitStar_rejects_expired_window idHash (fun _ _ _ => true) 401 0
      (initialChain idHash 0) "a" "a:100:starRegistry" "sig" (JVal.jstr "st")
      100 (by decide) (by decide)⟩

/-- C5.  Every failing submitStar call surfaces exactly the one generic
submission error: whatever error the workflow produced internally, the
message the caller sees is the generic one. -/
theorem c5_submitStar_generic_error_only (sha : String → String)
    (verify : String → String → String → Bool)
    (currentTime nowMs : Int) (bc : Blockchain)
    (address message signature : String) (star : JVal)
    (bc2 : Blockchain) (e : String)
    (h : submitStar sha verify currentTime nowMs bc address message signature star
          = (bc2, Except.error e)) :
    e = "There was an issue submitting your star." := by
  unfold submitStar at h
  rcases hs : submitStarTry sha verify currentTime nowMs bc address message signature star
    with ⟨bc3, r⟩
  rw [hs] at h
  cases r with
  | ok b => simp at h
  | error e2 =>
    simp only [Prod.mk.injEq, Except.error.injEq] at h
    exact h.2.symm

/-- Witness for C5 at a concrete failing call (valid timing, refused
signature). -/
theorem c5_witness :
    submitStar idHash (fun _ _ _ => false) 150 0 (initialChain idHash 0)
        "a" "a:100:starRegistry" "sig" (JVal.jstr "st")
      = (initialChain idHash 0,
          Except.error "There was an issue submitting your star.") ∧
      "There was an issue submitting your star."
        = "There was an issue submitting your star." :=
  ⟨rfl,
    c5_submitStar_generic_error_only idHash (fun _ _ _ => false) 150 0
      (initialChain idHash 0) "a" "a:100:starRegistry" "sig" (JVal.jstr "st")
      (initialChain idHash 0) "There was an issue submitting your star." rfl⟩

/-- Auxiliary for C6: taking the head of a filtered list is searching for
the first match. -/
theorem head_filter_eq_find (p : Block → Bool) (l : List Block) :
    (l.filter p).head? = l.find? p := by
  induction l with
  | nil => rfl
  | cons a l ih =>
    by_cases h : p a <;> simp [List.filter_cons, List.find?_cons, h, ih]

/-- C6.  getBlockByHeight returns the first block of the chain whose
height field equals the argument, and an explicit null result whenever no
block matches; being a total function into Option it never raises. -/
theorem c6_getBlockByHeight_first_match (bc : Blockchain) (h : Int) :
    getBlockByHeight bc h = bc.chain.find? (fun b => ((b.height : Int) == h)) ∧
      ((∀ b ∈ bc.chain, (b.height : Int) ≠ h) → getBlockByHeight bc h = none) := by
  constructor
  · exact head_filter_eq_find _ _
  · intro hnone
    rw [show getBlockByHeight bc h
        = (bc.chain.filter (fun p => ((p.height : Int) == h))).head? from rfl,
      head_filter_eq_find, List.find?_eq_none]
    intro b hb
    simpa using hnone b hb

/-- Witness for C6: height 5 lies beyond the concrete two-block chain, and
the query returns none. -/
theorem c6_witness :
    (getBlockByHeight twoChain 5
        = twoChain.chain.find? (fun b => ((b.height : Int) == 5))) ∧
      getBlockByHeight twoChain 5 = none :=
  ⟨(c6_getBlockByHeight_first_match twoChain 5).1,
    (c6_getBlockByHeight_first_match twoChain 5).2 (by decide)⟩

/-- Auxiliary for C7: a decoded value whose owner field matches is an
object and hence truthy. -/
theorem jsTruthy_of_ownerEq (d : JVal) (a : String) (h : ownerEq d a = true) :
    jsTruthy d = true := by
  cases d <;> simp_all [ownerEq, jsGetOwner, jsTruthy]

/-- Auxiliary for C7: the truthiness conjunct of the collection test is
redundant. -/
theorem truthy_and_ownerEq (d : JVal) (a : String) :
    (jsTruthy d && ownerEq d a) = ownerEq d a := by
  cases h : ownerEq d a
  · simp [h]
  · simp [h, jsTruthy_of_ownerEq d a h]

/-- Auxiliary for C7: the collecting fold is a filter followed by a
map. -/
theorem getStars_go (address : String) (chain : List Block) (acc : List JVal) :
    chain.foldl
      (fun stars block =>
        if ownerEq block.getBData address then stars ++ [block.getBData] else stars)
      acc
    = acc ++ (chain.filter (fun b => ownerEq b.getBData address)).map Block.getBData := by
  induction chain generalizing acc with
  | nil => simp
  | cons b l ih =>
    simp only [List.foldl_cons]
    rw [ih]
    simp only [List.filter_cons]
    by_cases h : ownerEq b.getBData address
    · simp [h]
    · simp [h]

/-- Auxiliary for C7: the source fold with the redundant truthiness test
removed. -/
theorem getStars_eq (bc : Blockchain) (address : String) :
    getStarsByWalletAddress bc address
      = bc.chain.foldl
          (fun stars block =>
            if ownerEq block.getBData address then stars ++ [block.getBData] else stars)
          [] := by
  unfold getStarsByWalletAddress
  congr 1
  funext stars block
  simp only [truthy_and_ownerEq]

/-- C7.  getStarsByWalletAddress returns exactly the decoded payloads of
the blocks whose decoded owner field equals the address, in chain order,
and a block of height 0 (which decodes to the genesis sentinel) never
matches any address. -/
theorem c7_getStars_filter_map (bc : Blockchain) (address : String) :
    getStarsByWalletAddress bc address
      = (bc.chain.filter (fun b => ownerEq b.getBData address)).map Block.getBData ∧
      ∀ b ∈ bc.chain, b.height = 0 → ownerEq b.getBData address = false := by
  constructor
  · rw [getStars_eq]
    simpa using getStars_go address bc.chain []
  · intro b _ hb
    simp [Block.getBData, hb, ownerEq, jsGetOwner]

/-- Witness for C7: on the concrete mixed chain, the query for addr
returns exactly its two star payloads in insertion order. -/
theorem c7_witness :
    (getStarsByWalletAddress starsChain "addr"
        = (starsChain.chain.filter (fun b => ownerEq b.getBData "addr")).map
            Block.getBData ∧
      ∀ b ∈ starsChain.chain, b.height = 0 → ownerEq b.getBData "addr" = false) ∧
      getStarsByWalletAddress starsChain "addr"
        = [starPayload "addr" (JVal.jstr "s1"), starPayload "addr" (JVal.jstr "s2")] :=
  ⟨c7_getStars_filter_map starsChain "addr", rfl⟩

/-- C8.  Every block with height 0 decodes through getBData to the genesis
sentinel marker rather than to its stored payload. -/
theorem c8_getBData_genesis_sentinel (b : Block) (h : b.height = 0) :
    b.getBData = JVal.jstr "** Genesis Block **" := by
  simp [Block.getBData, h]

/-- Witness for C8 at the fresh genesis block. -/
theorem c8_witness :
    (newBlock genesisData).height = 0 ∧
      (newBlock genesisData).getBData = JVal.jstr "** Genesis Block **" :=
  ⟨rfl, c8_getBData_genesis_sentinel (newBlock genesisData) rfl⟩

/-- C9, counterexample.  The claim asserts that once the chain holds two
blocks, a further _addBlock call leaves the blocks array unchanged.  On
the concrete reachable two-block chain, a third _addBlock call does admit
nothing, but the validate side effect inside validateChain overwrites the
stored hash of the tip, so the blocks array does change. -/
theorem c9_counterexample_chain_array_changes :
    ∃ bc3, addBlock idHash 0 twoChain (newBlock (JVal.jstr "t"))
        = Except.ok (bc3, none) ∧
      bc3.chain.map Block.hash ≠ twoChain.chain.map Block.hash :=
  ⟨_, rfl, by decide⟩

/-- C9, amended.  Every reachable chain holds at most two blocks, every
stored block keeps a null previousBlockHash, and once the chain holds two
blocks every further _addBlock call reports a linkage error from
validateChain, admits nothing, and leaves the chain length and the height
counter unchanged (though the stored tip hash may be rewritten by the
validation side effect). -/
theorem c9_amended_two_block_cap (sha : String → String) (bc : Blockchain)
    (h : Reachable sha bc) :
    bc.chain.length ≤ 2 ∧
      (∀ b ∈ bc.chain, b.previousBlockHash = none) ∧
      (bc.chain.length = 2 →
        (∃ chain2 log, validateChain sha bc = Except.ok (chain2, log) ∧ log ≠ []) ∧
        ∀ (now : Int) (b : Block), ∃ bc2,
          addBlock sha now bc b = Except.ok (bc2, none) ∧
            bc2.chain.length = 2 ∧ bc2.height = bc.height) := by
  obtain ⟨bcc, bhh⟩ := bc
  rcases reachable_shape sha _ h with ⟨g, hchain, hgg, hht⟩ | ⟨g, t, hchain, hgg, hgt, hht⟩
  · simp only at hchain hht
    subst hchain hht
    exact ⟨by simp, by simp [hgg.2.2], by simp⟩
  · simp only at hchain hht
    subst hchain hht
    have ht1 : 0 < t.height := by rw [hgt.1]; norm_num
    have hm : t.previousBlockHash ≠ g.hash := by
      rw [hgt.2.2]
      exact fun hc => hgg.2.1 hc.symm
    refine ⟨by simp, ?_, fun _ => ⟨?_, fun now b => ?_⟩⟩
    · intro b hb
      simp only [List.mem_cons, List.not_mem_nil, or_false] at hb
      rcases hb with rfl | rfl
      · exact hgg.2.2
      · exact hgt.2.2
    · exact ⟨[g, (Block.validateRun sha t).1], [mismatchMsg 1 t.previousBlockHash g.hash],
        validateChainL_pair sha g t hgg.1 ht1 hm, by simp⟩
    · exact ⟨{ chain := [g, (Block.validateRun sha t).1], height := 1 },
        addBlock_pair sha now g t 1 b hgg.1 ht1 hm, by simp, rfl⟩

/-- Witness for the amended C9 at the concrete reachable two-block
chain. -/
theorem c9_witness :
    twoChain.chain.length ≤ 2 ∧
      (∀ b ∈ twoChain.chain, b.previousBlockHash = none) ∧
      (twoChain.chain.length = 2 →
        (∃ chain2 log, validateChain idHash twoChain = Except.ok (chain2, log) ∧
          log ≠ []) ∧
        ∀ (now : Int) (b : Block), ∃ bc2,
          addBlock idHash now twoChain b = Except.ok (bc2, none) ∧
            bc2.chain.length = 2 ∧ bc2.height = twoChain.height) :=
  c9_amended_two_block_cap idHash twoChain
    (Reachable.step (initialChain idHash 0) 0 (JVal.jstr "s") twoChain tBlock
      (Reachable.init 0) rfl)

/-- Auxiliary for C10: serialising a block with a present hash differs
from serialising it with a null hash, since the hash position holds a
quote in one case and the word null in the other. -/
theorem jsonStr_some_ne_none (hh : String) (ht : Nat) (bb : JVal) (bt : Int)
    (bp : Option String) :
    jsonStr ⟨some hh, ht, bb, bt, bp⟩ ≠ jsonStr ⟨none, ht, bb, bt, bp⟩ := by
  intro heq
  have hd := congrArg String.data heq
  simp only [jsonStr, optStrJson, jstrQuote, String.data_append, List.append_assoc] at hd
  have hc := List.append_cancel_left hd
  simp at hc

/-- C10.  For a collision-free digest, a freshly admitted block (hash
still null when _addBlock stringified it) always resolves validate() to
false, because validate recomputes the digest over the state that now
includes the stored hash; and the call overwrites the stored hash with the
fresh digest. -/
theorem c10_validate_false_after_admission (sha : String → String)
    (hinj : Function.Injective sha) (now : Int) (chainLen : Nat) (b : Block)
    (hfresh : b.hash = none) :
    Block.validateRun sha (prepBlock sha now chainLen b)
      = ({ prepBlock sha now chainLen b with
            hash := some (sha (jsonStr (prepBlock sha now chainLen b))) }, false) := by
  obtain ⟨bh, bht, bb, bt, bp⟩ := b
  simp only at hfresh
  subst hfresh
  unfold Block.validateRun prepBlock
  simp only
  refine Prod.ext rfl ?_
  simp only
  rw [Bool.eq_false_iff]
  intro hbeq
  rw [beq_iff_eq] at hbeq
  have heq := Option.some.inj hbeq
  have hstr := hinj heq
  exact jsonStr_some_ne_none
    (sha (jsonStr ⟨none, chainLen, bb, now, bp⟩)) chainLen bb now bp hstr.symm

/-- Witness for C10 at the concrete injective digest and a fresh block. -/
theorem c10_witness :
    (newBlock (JVal.jstr "x")).hash = none ∧
      Block.validateRun idHash (prepBlock idHash 0 0 (newBlock (JVal.jstr "x")))
        = ({ prepBlock idHash 0 0 (newBlock (JVal.jstr "x")) with
              hash := some (idHash (jsonStr
                (prepBlock idHash 0 0 (newBlock (JVal.jstr "x"))))) }, false) :=
  ⟨rfl, c10_validate_false_after_admission idHash (fun _ _ hab => hab) 0 0
    (newBlock (JVal.jstr "x")) rfl⟩
